import Mathlib

/-!
Verification of the expense-categorization engine.

This development is a shallow embedding of the categorization subsystem:

* `app/core/vector_expense_learner.py` (`QdrantExpenseLearner`): the voting
  classifier (`predict_category_with_confidence`), full training with 5-fold
  cross-validation (`train_model`), and the incremental updater
  (`incremental_train`);
* `app/core/expense_learner.py` (`ExpenseLearner`): the traditional
  naive-Bayes learner, modelled for its guard and incremental-fallback logic;
* `app/nlp/expense_extractor.py`: the rule-based corrector
  (`_validate_categorization`) and the decision policy
  (`_apply_ml_categorization`).

Modelling conventions:

* Python floats are modelled by `ℚ`; all the thresholds in the source
  (0.85, 0.3, 0.75) are exact decimals.
* The sentence-transformer embedding is a deterministic function of the
  canonical text, with no property of the vector itself ever used by the
  code under study; a vector is therefore modelled by the canonical text it
  deterministically encodes (`VPoint.vectorText`).
* Qdrant is an external service.  A similarity search is modelled as an
  oracle `... → Except Unit (List SearchResult)`; `Except.error` models the
  client raising (service unreachable), mirroring how the Python code only
  ever observes the returned `(payload, score)` list or an exception.
* Python `dict` accumulation preserves insertion order, and `max(d.items(),
  key=...)` returns the first item attaining the maximum; `addScore` and
  `maxByScore` reproduce exactly that.
* Python truthiness of strings (`if predicted_category`) is modelled by
  `strTruthy`: `None` and `""` are falsy.
-/

namespace Expenses

/-- One neighbor returned by a similarity search: the `category` payload and
the cosine-similarity `score`, as consumed by the voting classifier. -/
structure SearchResult where
  category : String
  score : ℚ
deriving DecidableEq

/-- `categories[cat] = categories.get(cat, 0) + score` on an insertion-ordered
association list, exactly as the Python dict accumulation behaves. -/
def addScore : List (String × ℚ) → String → ℚ → List (String × ℚ)
  | [], cat, s => [(cat, s)]
  | (c, v) :: rest, cat, s =>
    if c = cat then (c, v + s) :: rest else (c, v) :: addScore rest cat s

/-- The per-category weighted-vote scores of a neighbor list
(`vector_expense_learner.py`, the `category_scores` loop). -/
def categoryScores (results : List SearchResult) : List (String × ℚ) :=
  results.foldl (fun acc r => addScore acc r.category r.score) []

/-- `sum(category_scores.values())`. -/
def scoresTotal (scores : List (String × ℚ)) : ℚ :=
  (scores.map Prod.snd).sum

/-- `max(items, key=lambda x: x[1])`: the first entry attaining the maximal
score, scanning in insertion order (Python `max` keeps the earliest of
equals). -/
def maxByScore (p : String × ℚ) (rest : List (String × ℚ)) : String × ℚ :=
  rest.foldl (fun best q => if best.2 < q.2 then q else best) p

/-- `QdrantExpenseLearner.predict_category_with_confidence`: weighted voting
over the neighbors; scores are normalized by the total only when the total is
positive; `(None, 0.0)` when no neighbors are found. -/
def predict_category_with_confidence (results : List SearchResult) :
    Option String × ℚ :=
  if results.isEmpty then (none, 0)
  else
    let scores := categoryScores results
    let total := scoresTotal scores
    let normed := if 0 < total then scores.map (fun p => (p.1, p.2 / total))
      else scores
    match normed with
    | [] => (none, 0)
    | p :: rest => (some (maxByScore p rest).1, (maxByScore p rest).2)

/-- The in-fold duplicate of the voting logic inside `train_model`
(`vector_expense_learner.py` lines 158-174): the argmax is taken over the
raw scores and the confidence is `best / total` when the total is positive,
`0.0` otherwise. -/
def foldPredict (results : List SearchResult) : Option String × ℚ :=
  if results.isEmpty then (none, 0)
  else
    match categoryScores results with
    | [] => (none, 0)
    | p :: rest =>
      let total := scoresTotal (p :: rest)
      let best := maxByScore p rest
      (some best.1, if 0 < total then best.2 / total else 0)

/-- An expense dictionary as produced by the extraction pipeline, restricted
to the fields read or written by the corrector and the decision policy. -/
structure ExtExpense where
  description : String
  vendor : String
  category : String
  amount : ℚ
  confidenceScore : Option ℚ
  mlPrediction : Option String
  openaiCategory : Option String
deriving DecidableEq

/-- Python `str.lower()`, modelled as a per-character map (we only apply it
to ASCII data, where this matches Python and `String.toLower`). -/
def lowerString (s : String) : String :=
  ⟨s.data.map Char.toLower⟩

/-- Python truthiness of an optional string: `None` and `""` are falsy. -/
def strTruthy : Option String → Bool
  | none => false
  | some s => !(s == "")

/-- `MIN_ML_CONFIDENCE = 0.85` in `_apply_ml_categorization`. -/
def MIN_ML_CONFIDENCE : ℚ := 85 / 100

/-- The per-expense body of the decision policy in `_apply_ml_categorization`
(`expense_extractor.py` lines 409-447): high confidence with a truthy ML
prediction trusts the ML category; medium confidence keeps the generative
(OpenAI) category while reporting the ML confidence; otherwise the generative
category is kept with confidence forced to `0.0`. -/
def updateExpense (e : ExtExpense) (pred : Option String) (conf : ℚ) :
    ExtExpense :=
  if strTruthy pred = true ∧ MIN_ML_CONFIDENCE ≤ conf then
    { e with category := pred.getD "", confidenceScore := some conf,
             mlPrediction := pred, openaiCategory := some e.category }
  else if 3 / 10 ≤ conf ∧ conf < MIN_ML_CONFIDENCE then
    { e with confidenceScore := some conf, mlPrediction := pred,
             openaiCategory := some e.category }
  else
    { e with confidenceScore := some 0,
             mlPrediction := if strTruthy pred then pred else none,
             openaiCategory := some e.category }

/-- `expense['confidence_score'] = 0.0`, the degraded-mode assignment. -/
def setConfZero (e : ExtExpense) : ExtExpense :=
  { e with confidenceScore := some 0 }

/-- The prediction loop of `_apply_ml_categorization`: expenses are updated
in order; the first raising query aborts the loop, leaving the current
expense and the remaining ones untouched (the handler then zeroes every
confidence).  Returns the list as left by the loop and whether it ran to
completion. -/
def processLoop (search : ExtExpense → Except Unit (List SearchResult)) :
    List ExtExpense → List ExtExpense → List ExtExpense × Bool
  | acc, [] => (acc.reverse, true)
  | acc, e :: rest =>
    match search e with
    | .error _ => (acc.reverse ++ e :: rest, false)
    | .ok results =>
      let r := predict_category_with_confidence results
      processLoop search (updateExpense e r.1 r.2 :: acc) rest

/-- `_apply_ml_categorization` (`expense_extractor.py` lines 370-461):
when the vector model is disabled, or the learner construction raises, or a
query raises mid-loop, every expense gets `confidence_score = 0.0` and keeps
the category it had at that point; no exception ever escapes. -/
def applyMlCategorization (useVectorModel : Bool) (learnerOk : Bool)
    (search : ExtExpense → Except Unit (List SearchResult))
    (expenses : List ExtExpense) : List ExtExpense :=
  if useVectorModel = false then expenses.map setConfZero
  else if learnerOk = false then expenses.map setConfZero
  else
    match processLoop search [] expenses with
    | (res, true) => res
    | (res, false) => res.map setConfZero

/-- The curated food-item term set of `_validate_categorization`. -/
def foodItems : List String :=
  ["cucumber", "tomato", "potato", "onion", "carrot", "lettuce", "spinach",
   "apple", "banana", "orange", "grapes", "strawberry", "lemon",
   "bread", "milk", "cheese", "yogurt", "butter", "eggs",
   "rice", "pasta", "flour", "sugar", "salt", "pepper",
   "chicken", "beef", "pork", "fish", "salmon", "tuna"]

/-- The curated cleaning-product term set of `_validate_categorization`. -/
def cleaningItems : List String :=
  ["domestos", "bleach", "detergent", "soap", "shampoo", "toothpaste",
   "toilet paper", "tissues", "kitchen roll", "washing powder"]

/-- The curated alcoholic-beverage term set of `_validate_categorization`. -/
def alcoholItems : List String :=
  ["beer", "wine", "vodka", "whiskey", "rum", "gin", "champagne",
   "lager", "ale", "cider", "spirits"]

/-- The hard-coded vendor misspelling table of `_validate_categorization`. -/
def vendorCorrections : List (String × String) :=
  [("feinsbery", "Sainsbury\x27s"), ("feinsbergen", "Sainsbury\x27s"),
   ("salisbury", "Sainsbury\x27s"), ("steinsberry", "Sainsbury\x27s"),
   ("azja", "Asda"), ("pc karys", "PC Currys")]

/-- The per-expense body of `_validate_categorization`
(`expense_extractor.py` lines 341-367): an `if`/`elif` chain overwriting the
category on an exact, case-insensitive description match against the curated
term sets, followed by the vendor-misspelling fix. -/
def validateExpense (e : ExtExpense) : ExtExpense :=
  let dl := lowerString e.description
  let e1 :=
    if dl ∈ foodItems ∧ e.category ≠ "Groceries" then
      { e with category := "Groceries" }
    else if dl ∈ cleaningItems ∧ e.category ≠ "Household Chemicals" then
      { e with category := "Household Chemicals" }
    else if dl ∈ alcoholItems ∧ e.category ≠ "Alcohol" then
      { e with category := "Alcohol" }
    else e
  match vendorCorrections.find? (fun p => p.1 == lowerString e1.vendor) with
  | some p => { e1 with vendor := p.2 }
  | none => e1

/-- `_validate_categorization` over the expense list. -/
def validateCategorization (es : List ExtExpense) : List ExtExpense :=
  es.map validateExpense

/-- A historical expense row as returned by
`get_all_expenses_for_training` / `get_expense`, restricted to the fields the
learners read. -/
structure TrainExpense where
  id : Nat
  transcription : String
  vendor : String
  description : String
  category : String
  amount : ℚ
deriving DecidableEq

/-- `_prepare_expense_text`: the canonical string
`f"{transcription} {vendor} {description}".strip()`. -/
def prepareExpenseText (e : TrainExpense) : String :=
  (e.transcription ++ " " ++ e.vendor ++ " " ++ e.description).trim

/-- A point of the main Qdrant collection: id, the embedded canonical text
(the embedding is deterministic in the text, see the header), and the
payload fields the classifier reads. -/
structure VPoint where
  id : Nat
  vectorText : String
  category : String
  amount : ℚ
deriving DecidableEq

/-- The metrics snapshot assembled at the end of
`QdrantExpenseLearner.train_model` and handed to `save_metrics`. -/
structure MetricsData where
  accuracy : ℚ
  samplesCount : Nat
  categoriesCount : Nat
  matrix : List (List Nat)
  labels : List String
  cvScores : List ℚ
deriving DecidableEq

/-- The externally visible state the vector learner mutates: the main
collection's points and the append-only metrics table. -/
structure TrainState where
  mainPoints : List VPoint
  savedMetrics : List MetricsData
deriving DecidableEq

/-- Per-category sample counts in first-occurrence order (the tallying
underlying `df['category'].value_counts()`). -/
def bumpCount : List (String × Nat) → String → List (String × Nat)
  | [], cat => [(cat, 1)]
  | (c, n) :: rest, cat =>
    if c = cat then (c, n + 1) :: rest else (c, n) :: bumpCount rest cat

/-- Tally the categories of a dataset. -/
def categoryCounts (es : List TrainExpense) : List (String × Nat) :=
  es.foldl (fun acc e => bumpCount acc e.category) []

/-- Insertion into a count-descending list (`value_counts` sorts by count
descending; the tie order among equal counts is not specified by pandas). -/
def insertDesc (p : String × Nat) : List (String × Nat) → List (String × Nat)
  | [] => [p]
  | q :: rest => if q.2 ≤ p.2 then p :: q :: rest else q :: insertDesc p rest

/-- Sort category counts by count, descending. -/
def sortByCountDesc : List (String × Nat) → List (String × Nat)
  | [] => []
  | p :: rest => insertDesc p (sortByCountDesc rest)

/-- `category_counts[category_counts >= min_samples].index.tolist()`: the
categories whose sample count reaches the per-category minimum, in
`value_counts` (count-descending) order. -/
def validCategories (minSamples : Nat) (es : List TrainExpense) :
    List String :=
  (((sortByCountDesc (categoryCounts es)).filter
      (fun p => minSamples ≤ p.2)).map Prod.fst)

/-- One out-of-fold test record: the true label, the displayed predicted
label (`predicted_label if predicted_label else 'Unknown'`), and the
confidence. -/
structure FoldRecord where
  trueLabel : String
  predLabel : String
  confidence : ℚ
deriving DecidableEq

/-- `predicted_label if predicted_label else 'Unknown'` (Python truthiness:
`None` and `""` both display as `"Unknown"`). -/
def displayLabel : Option String → String
  | none => "Unknown"
  | some s => if s = "" then "Unknown" else s

/-- The test half of one cross-validation fold: each held-out row is queried
through the fold's ephemeral partition (the `search` oracle); a raising
query propagates as an error out of the whole fold loop, since the Python
`for` body has a `try/finally` but no `except`. -/
def runFoldTests (search : TrainExpense → Except Unit (List SearchResult)) :
    List TrainExpense → Except Unit (Nat × List FoldRecord)
  | [] => Except.ok (0, [])
  | e :: rest =>
    match search e with
    | .error u => .error u
    | .ok results =>
      match runFoldTests search rest with
      | .error u => .error u
      | .ok tail =>
        let r := foldPredict results
        let hit : Nat := if r.1 = some e.category then 1 else 0
        .ok (hit + tail.1, ⟨e.category, displayLabel r.1, r.2⟩ :: tail.2)

/-- The fold loop of `train_model`: fold accuracies and the out-of-fold
records, accumulated in order; the first infrastructure error aborts the
remaining folds. -/
def runFolds (search : Nat → TrainExpense → Except Unit (List SearchResult)) :
    Nat → List (List TrainExpense × List TrainExpense) →
    Except Unit (List ℚ × List FoldRecord)
  | _, [] => Except.ok ([], [])
  | foldNum, (_, testRows) :: rest =>
    match runFoldTests (search foldNum) testRows with
    | .error u => .error u
    | .ok r =>
      match runFolds search (foldNum + 1) rest with
      | .error u => .error u
      | .ok tail =>
        let accuracy : ℚ :=
          if testRows.length ≠ 0 then (r.1 : ℚ) / (testRows.length : ℚ) else 0
        .ok (accuracy :: tail.1, r.2 ++ tail.2)

/-- One row of `sklearn.metrics.confusion_matrix(y_true, y_pred, labels)`:
for true label `t`, the count of samples with that true label and predicted
label `p`, for each `p` in `labels`.  Predictions outside `labels` are
counted nowhere. -/
def confusionRow (labels : List String) (pairs : List (String × String))
    (t : String) : List Nat :=
  labels.map (fun p => (pairs.filter (fun q => q.1 == t && q.2 == p)).length)

/-- `confusion_matrix(all_true_labels, all_predicted_labels,
labels=valid_categories)`. -/
def confusionMatrix (labels : List String)
    (pairs : List (String × String)) : List (List Nat) :=
  labels.map (confusionRow labels pairs)

/-- Qdrant `upsert` of a single point: idempotent replace by id. -/
def upsertPoint : List VPoint → VPoint → List VPoint
  | [], pt => [pt]
  | q :: rest, pt => if q.id = pt.id then pt :: rest else q :: upsertPoint rest pt

/-- Upsert a batch of points, in order. -/
def upsertPoints (pts : List VPoint) (newPts : List VPoint) : List VPoint :=
  newPts.foldl upsertPoint pts

/-- `QdrantExpenseLearner.train_model` (`vector_expense_learner.py` lines
67-315).  Inputs that come from outside the function are parameters: the
dataset rows, the `KFold(5, shuffle=True, random_state=42)` partition of the
filtered dataset, and the per-fold similarity-search oracle.  Behaviour:
fewer than 10 rows, or fewer than 2 categories reaching `minSamples`,
returns `False` untouched; an error escaping the fold loop is caught by the
outer `except` and returns `False` untouched; otherwise the valid points are
upserted into the main collection and one metrics snapshot is appended. -/
def train_model (minSamples : Nat) (expenses : List TrainExpense)
    (folds : List (List TrainExpense × List TrainExpense))
    (search : Nat → TrainExpense → Except Unit (List SearchResult))
    (st : TrainState) : Bool × TrainState :=
  if expenses.length < 10 then (false, st)
  else
    let valid := validCategories minSamples expenses
    if valid.length < 2 then (false, st)
    else
      let df := expenses.filter (fun e => e.category ∈ valid)
      match runFolds search 1 folds with
      | .error _ => (false, st)
      | .ok r =>
        let accuracies := r.1
        let meanAccuracy : ℚ :=
          if accuracies.length ≠ 0 then accuracies.sum / (accuracies.length : ℚ)
          else 0
        let cm := confusionMatrix valid
          (r.2.map (fun rec => (rec.trueLabel, rec.predLabel)))
        let newPoints := df.map
          (fun e => VPoint.mk e.id (prepareExpenseText e) e.category e.amount)
        let metric : MetricsData :=
          ⟨meanAccuracy, df.length, valid.length, cm, valid, accuracies⟩
        (true,
          { mainPoints := upsertPoints st.mainPoints newPoints,
            savedMetrics := st.savedMetrics ++ [metric] })

/-- `QdrantExpenseLearner.incremental_train` (`vector_expense_learner.py`
lines 381-407): fetch the expense, recompute its canonical text and
embedding, and upsert that single point with the confirmed category into the
main collection.  No other step. -/
def incremental_train (getExpense : Nat → Option TrainExpense)
    (expenseId : Nat) (confirmedCategory : String) (st : TrainState) :
    Bool × TrainState :=
  match getExpense expenseId with
  | none => (false, st)
  | some e =>
    let pt : VPoint :=
      ⟨expenseId, prepareExpenseText e, confirmedCategory, e.amount⟩
    (true, { st with mainPoints := upsertPoint st.mainPoints pt })

/-- The externally visible state of the traditional `ExpenseLearner`: the
in-memory fitted model (abstracted by its class list), the append-only
metrics rows `(accuracy, training_type)`, and how many times the model file
was written. -/
structure NBState where
  model : Option (List String)
  savedMetrics : List (ℚ × String)
  savedModelCount : Nat
deriving DecidableEq

/-- `ExpenseLearner.train_model` (`expense_learner.py` lines 52-111), with
the sklearn fit/evaluation abstracted: fitting succeeds on the filtered data
(the classes are the valid categories) and `evaluate_model` is an oracle
returning an optional accuracy.  The guards are translated exactly: fewer
than 10 rows, or fewer than 2 categories with at least
`min_samples_per_category = 3` samples, return `False` untouched. -/
def nb_train_model (expenses : List TrainExpense) (evalAfter : Option ℚ)
    (st : NBState) : Bool × NBState :=
  if expenses.length < 10 then (false, st)
  else
    let valid := validCategories 3 expenses
    if valid.length < 2 then (false, st)
    else
      let st1 := { st with model := some valid }
      let st2 :=
        match evalAfter with
        | some acc =>
          { st1 with savedMetrics := st1.savedMetrics ++ [(acc, "full")] }
        | none => st1
      (true, { st2 with savedModelCount := st2.savedModelCount + 1 })

/-- `ExpenseLearner.incremental_train` (`expense_learner.py` lines 113-185):
fetch the expense; if no model exists yet, run a full `train_model` first
and fail if it fails; then `partial_fit` the single sample (extending the
class list if needed), record incremental metrics, and save the model. -/
def nb_incremental_train (getExpense : Nat → Option TrainExpense)
    (expenses : List TrainExpense) (evalAfter : Option ℚ)
    (expenseId : Nat) (confirmedCategory : String) (st : NBState) :
    Bool × NBState :=
  match getExpense expenseId with
  | none => (false, st)
  | some e =>
    let trained : Bool × NBState :=
      match st.model with
      | none => nb_train_model expenses evalAfter st
      | some _ => (true, st)
    match trained with
    | (false, st1) => (false, st1)
    | (true, st1) =>
      let features := e.transcription ++ " " ++ e.vendor
      if features = "" ∨ confirmedCategory = "" then (false, st1)
      else
        let classes :=
          match st1.model with
          | some cs =>
            if confirmedCategory ∈ cs then cs else cs ++ [confirmedCategory]
          | none => [confirmedCategory]
        let st2 := { st1 with model := some classes }
        let st3 :=
          match evalAfter with
          | some acc =>
            { st2 with
                savedMetrics := st2.savedMetrics ++ [(acc, "incremental")] }
          | none => st2
        (true, { st3 with savedModelCount := st3.savedModelCount + 1 })

/-- A sample extracted expense used to instantiate universally quantified
theorems at concrete inputs. -/
def sampleExpense : ExtExpense :=
  ⟨"wine", "Asda", "X", 5, none, none, none⟩

/-- Scenario B of the spec: five neighbors all labeled Groceries with
similarities 0.9, 0.85, 0.8, 0.7, 0.6. -/
def scenarioB : List SearchResult :=
  [⟨"Groceries", 9/10⟩, ⟨"Groceries", 85/100⟩, ⟨"Groceries", 8/10⟩,
   ⟨"Groceries", 7/10⟩, ⟨"Groceries", 6/10⟩]

/-- Scenario C of the spec: neighbors 3 x Alcohol (0.8, 0.7, 0.6) against
2 x Groceries (0.75, 0.65). -/
def scenarioC : List SearchResult :=
  [⟨"Alcohol", 8/10⟩, ⟨"Alcohol", 7/10⟩, ⟨"Alcohol", 6/10⟩,
   ⟨"Groceries", 75/100⟩, ⟨"Groceries", 65/100⟩]

theorem maxByScore_mem (rest : List (String × ℚ)) :
    ∀ p, maxByScore p rest ∈ p :: rest := by
  induction rest with
  | nil => intro p; simp [maxByScore]
  | cons q rest ih =>
    intro p
    have h := ih (if p.2 < q.2 then q else p)
    simp only [maxByScore, List.foldl_cons] at h ⊢
    by_cases hpq : p.2 < q.2 <;> simp [hpq] at h ⊢ <;> tauto

theorem maxByScore_le (rest : List (String × ℚ)) :
    ∀ p q, q ∈ p :: rest → q.2 ≤ (maxByScore p rest).2 := by
  induction rest with
  | nil => intro p q hq; simp at hq; simp [maxByScore, hq]
  | cons r rest ih =>
    intro p q hq
    have hstep : p.2 ≤ (if p.2 < r.2 then r else p).2 ∧
        r.2 ≤ (if p.2 < r.2 then r else p).2 := by
      by_cases hpr : p.2 < r.2 <;> simp [hpr] <;> linarith
    have hself : (if p.2 < r.2 then r else p).2 ≤
        (maxByScore (if p.2 < r.2 then r else p) rest).2 :=
      ih (if p.2 < r.2 then r else p) _ (List.mem_cons_self _ _)
    simp only [maxByScore, List.foldl_cons] at ih ⊢
    rcases List.mem_cons.mp hq with rfl | hq1
    · exact le_trans hstep.1 hself
    · rcases List.mem_cons.mp hq1 with rfl | hq2
      · exact le_trans hstep.2 hself
      · exact ih (if p.2 < r.2 then r else p) q (List.mem_cons_of_mem _ hq2)

theorem addScore_total (c : String) (s : ℚ) :
    ∀ acc, scoresTotal (addScore acc c s) = scoresTotal acc + s := by
  intro acc
  induction acc with
  | nil => simp [addScore, scoresTotal]
  | cons q rest ih =>
    obtain ⟨c1, v⟩ := q
    by_cases h : c1 = c <;> simp [addScore, h, scoresTotal] at ih ⊢ <;> linarith

theorem categoryScores_total_aux (results : List SearchResult) :
    ∀ acc, scoresTotal
        (results.foldl (fun a r => addScore a r.category r.score) acc) =
      scoresTotal acc + (results.map SearchResult.score).sum := by
  induction results with
  | nil => intro acc; simp
  | cons r rest ih =>
    intro acc
    simp only [List.foldl_cons, List.map_cons, List.sum_cons, ih,
      addScore_total]
    ring

theorem categoryScores_total (results : List SearchResult) :
    scoresTotal (categoryScores results) =
      (results.map SearchResult.score).sum := by
  have h := categoryScores_total_aux results []
  simpa [categoryScores, scoresTotal] using h

theorem addScore_nonneg (c : String) (s : ℚ) (hs : 0 ≤ s) :
    ∀ acc, (∀ p ∈ acc, 0 ≤ p.2) → ∀ p ∈ addScore acc c s, 0 ≤ p.2 := by
  intro acc
  induction acc with
  | nil =>
    intro _ p hp
    simp [addScore] at hp
    simp [hp, hs]
  | cons q rest ih =>
    obtain ⟨c1, v⟩ := q
    intro hacc p hp
    have hv : 0 ≤ v := hacc (c1, v) (by simp)
    have hrest : ∀ p ∈ rest, 0 ≤ p.2 := fun p hp => hacc p (by simp [hp])
    simp only [addScore] at hp
    by_cases h : c1 = c
    · rw [if_pos h] at hp
      rcases List.mem_cons.mp hp with rfl | hp1
      · simpa using add_nonneg hv hs
      · exact hrest p hp1
    · rw [if_neg h] at hp
      rcases List.mem_cons.mp hp with rfl | hp1
      · simpa using hv
      · exact ih hrest p hp1

theorem categoryScores_nonneg_aux (results : List SearchResult)
    (h : ∀ r ∈ results, 0 ≤ r.score) :
    ∀ acc, (∀ p ∈ acc, 0 ≤ p.2) →
      ∀ p ∈ results.foldl (fun a r => addScore a r.category r.score) acc,
        0 ≤ p.2 := by
  induction results with
  | nil =>
    intro acc hacc p hp
    simp at hp
    exact hacc p hp
  | cons r rest ih =>
    intro acc hacc p hp
    simp only [List.foldl_cons] at hp
    exact ih (fun x hx => h x (by simp [hx])) _
      (addScore_nonneg _ _ (h r (by simp)) acc hacc) p hp

theorem categoryScores_nonneg (results : List SearchResult)
    (h : ∀ r ∈ results, 0 ≤ r.score) :
    ∀ p ∈ categoryScores results, 0 ≤ p.2 :=
  categoryScores_nonneg_aux results h [] (by simp)

theorem mem_le_scoresTotal (scores : List (String × ℚ))
    (hnn : ∀ p ∈ scores, 0 ≤ p.2) (p : String × ℚ) (hp : p ∈ scores) :
    p.2 ≤ scoresTotal scores := by
  have hmem : p.2 ∈ scores.map Prod.snd := List.mem_map_of_mem Prod.snd hp
  have hnn' : ∀ x ∈ scores.map Prod.snd, 0 ≤ x := by
    intro x hx
    obtain ⟨q, hq, rfl⟩ := List.mem_map.mp hx
    exact hnn q hq
  exact List.single_le_sum hnn' p.2 hmem

/-- C2: the classify confidence lies in `[0,1]` provided every neighbor
similarity is non-negative, and it is exactly `0.0` when no neighbors are
found.  (As stated over arbitrary similarities the claim fails, see the
counterexample: a negative cosine score escapes the interval because the
code only normalizes when the total is positive.) -/
theorem C2_confidence_in_unit_interval (results : List SearchResult)
    (h : ∀ r ∈ results, 0 ≤ r.score) :
    0 ≤ (predict_category_with_confidence results).2 ∧
    (predict_category_with_confidence results).2 ≤ 1 ∧
    (results = [] → predict_category_with_confidence results = (none, 0)) := by
  refine ⟨?_, ?_, fun hres => by simp [predict_category_with_confidence, hres]⟩
  all_goals
    unfold predict_category_with_confidence
    by_cases hres : results.isEmpty
  case pos => simp [hres]
  case pos => simp [hres]
  all_goals
    simp only [hres, Bool.false_eq_true, if_false]
    have hnn := categoryScores_nonneg results h
    by_cases ht : 0 < scoresTotal (categoryScores results)
  case pos =>
    rw [if_pos ht]
    rcases hsc : (categoryScores results).map
        (fun p => (p.1, p.2 / scoresTotal (categoryScores results))) with _ | ⟨p, rest⟩
    · rw [hsc]
    · rw [hsc]
      have hbest := maxByScore_mem rest p
      rw [← hsc] at hbest
      obtain ⟨q, hq, hqe⟩ := List.mem_map.mp hbest
      show 0 ≤ (maxByScore p rest).2
      rw [← hqe]
      exact div_nonneg (hnn q hq) (le_of_lt ht)
  case pos =>
    rw [if_pos ht]
    rcases hsc : (categoryScores results).map
        (fun p => (p.1, p.2 / scoresTotal (categoryScores results))) with _ | ⟨p, rest⟩
    · rw [hsc]; norm_num
    · rw [hsc]
      have hbest := maxByScore_mem rest p
      rw [← hsc] at hbest
      obtain ⟨q, hq, hqe⟩ := List.mem_map.mp hbest
      show (maxByScore p rest).2 ≤ 1
      rw [← hqe]
      exact div_le_one_of_le₀ (mem_le_scoresTotal _ hnn q hq) (le_of_lt ht)
  case neg =>
    rw [if_neg ht]
    rcases hsc : categoryScores results with _ | ⟨p, rest⟩
    · norm_num
    · have hbest := maxByScore_mem rest p
      rw [← hsc] at hbest
      show 0 ≤ (maxByScore p rest).2
      exact hnn _ hbest
  case neg =>
    rw [if_neg ht]
    rcases hsc : categoryScores results with _ | ⟨p, rest⟩
    · norm_num
    · have hbest := maxByScore_mem rest p
      rw [← hsc] at hbest
      have h1 : (maxByScore p rest).2 ≤ scoresTotal (categoryScores results) :=
        mem_le_scoresTotal _ hnn _ hbest
      have h2 : scoresTotal (categoryScores results) ≤ 0 := le_of_not_lt ht
      show (maxByScore p rest).2 ≤ 1
      linarith

/-- C2 counterexample: a single neighbor with cosine score `-1/2` yields
confidence `-1/2`, outside `[0,1]`; the code skips normalization because the
total is not positive and returns the raw negative score. -/
theorem C2_counterexample :
    predict_category_with_confidence [⟨"A", -(1/2)⟩] = (some "A", -(1/2)) ∧
    ¬(0 ≤ (predict_category_with_confidence [⟨"A", -(1/2)⟩]).2 ∧
      (predict_category_with_confidence [⟨"A", -(1/2)⟩]).2 ≤ 1) := by
  norm_num +decide [predict_category_with_confidence, categoryScores,
    addScore, scoresTotal, maxByScore]

/-- C2 witness: the theorem applied at a concrete neighbor list with
non-negative scores. -/
theorem C2_confidence_in_unit_interval_witness :
    0 ≤ (predict_category_with_confidence [⟨"A", 1/2⟩]).2 ∧
    (predict_category_with_confidence [⟨"A", 1/2⟩]).2 ≤ 1 ∧
    ([⟨"A", 1/2⟩] = ([] : List SearchResult) →
      predict_category_with_confidence [⟨"A", 1/2⟩] = (none, 0)) :=
  C2_confidence_in_unit_interval [⟨"A", 1/2⟩] (by
    intro r hr
    rw [List.mem_singleton] at hr
    subst hr
    norm_num)

theorem maxByScore_map_div (total : ℚ) (ht : 0 < total) :
    ∀ (rest : List (String × ℚ)) (p : String × ℚ),
      maxByScore (p.1, p.2 / total)
          (rest.map (fun q => (q.1, q.2 / total))) =
        ((maxByScore p rest).1, (maxByScore p rest).2 / total) := by
  intro rest
  induction rest with
  | nil => intro p; simp [maxByScore]
  | cons q rest ih =>
    intro p
    simp only [List.map_cons, maxByScore, List.foldl_cons]
    have hiff : ((p.1, p.2 / total).2 < (q.1, q.2 / total).2) ↔ p.2 < q.2 :=
      div_lt_div_iff_of_pos_right ht
    by_cases hpq : p.2 < q.2
    · rw [if_pos (hiff.mpr hpq), if_pos hpq]
      exact ih q
    · rw [if_neg (fun hc => hpq (hiff.mp hc)), if_neg hpq]
      exact ih p

/-- C3: the voting classifier sums neighbor similarities per category,
normalizes by the total, and returns the argmax category with its normalized
score; no neighbors yields `(none, 0)`; and the two spec scenarios compute
exactly as claimed (Groceries with confidence 1; Alcohol with scores
2.1 vs 1.4 and confidence 0.6). -/
theorem C3_weighted_voting :
    (∀ results : List SearchResult, results ≠ [] →
      (∀ r ∈ results, 0 < r.score) →
      ∃ p, p ∈ categoryScores results ∧
        (∀ q ∈ categoryScores results, q.2 ≤ p.2) ∧
        predict_category_with_confidence results =
          (some p.1, p.2 / scoresTotal (categoryScores results))) ∧
    predict_category_with_confidence [] = (none, 0) ∧
    categoryScores scenarioC = [("Alcohol", 21/10), ("Groceries", 7/5)] ∧
    predict_category_with_confidence scenarioB = (some "Groceries", 1) ∧
    predict_category_with_confidence scenarioC = (some "Alcohol", 3/5) := by
  refine ⟨?_, by simp [predict_category_with_confidence], ?_, ?_, ?_⟩
  · intro results hne hpos
    have ht : 0 < scoresTotal (categoryScores results) := by
      rw [categoryScores_total]
      refine List.sum_pos _ ?_ (by simpa using hne)
      intro x hx
      obtain ⟨r, hr, rfl⟩ := List.mem_map.mp hx
      exact hpos r hr
    rcases hsc : categoryScores results with _ | ⟨p, rest⟩
    · rw [hsc] at ht
      simp [scoresTotal] at ht
    · rw [hsc] at ht
      refine ⟨maxByScore p rest, ?_, ?_, ?_⟩
      · exact maxByScore_mem rest p
      · intro q hq
        exact maxByScore_le rest p q hq
      · unfold predict_category_with_confidence
        rw [if_neg (by simpa using hne), hsc]
        simp only []
        rw [if_pos ht, List.map_cons]
        simp only [maxByScore_map_div (scoresTotal (p :: rest)) ht rest p]
  · norm_num +decide [categoryScores, addScore, scenarioC]
  · norm_num +decide [predict_category_with_confidence, categoryScores,
      addScore, scoresTotal, maxByScore, scenarioB]
  · norm_num +decide [predict_category_with_confidence, categoryScores,
      addScore, scoresTotal, maxByScore, scenarioC]

/-- C3 witness: the general clause of the theorem applied at a concrete
one-neighbor list. -/
theorem C3_weighted_voting_witness :
    ∃ p, p ∈ categoryScores [⟨"A", 1⟩] ∧
      (∀ q ∈ categoryScores [⟨"A", 1⟩], q.2 ≤ p.2) ∧
      predict_category_with_confidence [⟨"A", 1⟩] =
        (some p.1, p.2 / scoresTotal (categoryScores [⟨"A", 1⟩])) :=
  C3_weighted_voting.1 [⟨"A", 1⟩] (by simp) (by
    intro r hr
    rw [List.mem_singleton] at hr
    subst hr
    norm_num)

/-- C1 counterexample: at input `(ml_prediction = "", ml_confidence = 0.9,
llm_category = "X")` the code produces `("X", 0.0)` — the high-confidence
branch additionally requires a truthy ML prediction, so the claimed
`(ml_prediction, ml_confidence)` result `("", 0.9)` is not what the code
returns. -/
theorem C1_counterexample :
    (updateExpense sampleExpense (some "") (9/10)).category = "X" ∧
    (updateExpense sampleExpense (some "") (9/10)).confidenceScore = some 0 ∧
    ¬((updateExpense sampleExpense (some "") (9/10)).category = "" ∧
      (updateExpense sampleExpense (some "") (9/10)).confidenceScore =
        some (9/10)) := by
  norm_num +decide [updateExpense, strTruthy, MIN_ML_CONFIDENCE,
    sampleExpense]

/-- C1 (amended): the decision policy is total and deterministic; when the
ML prediction is truthy (present and non-empty) and confidence is at least
0.85 the final category is the ML prediction with the ML confidence; for
confidence in `[0.3, 0.85)` the final category is the generative
(llm/OpenAI) category, i.e. the expense category is unchanged, with the ML
confidence reported; for confidence below 0.3 the generative category is
kept with confidence forced to 0; when the ML prediction is falsy (absent or
empty) and confidence is at least 0.85 the generative category is kept with
confidence forced to 0; the reported confidence is always a defined
number. -/
theorem C1_decision_policy (e : ExtExpense) (pred : Option String)
    (conf : ℚ) :
    (∀ c : String, pred = some c → c ≠ "" → MIN_ML_CONFIDENCE ≤ conf →
      (updateExpense e pred conf).category = c ∧
      (updateExpense e pred conf).confidenceScore = some conf) ∧
    (3/10 ≤ conf → conf < MIN_ML_CONFIDENCE →
      (updateExpense e pred conf).category = e.category ∧
      (updateExpense e pred conf).confidenceScore = some conf) ∧
    (conf < 3/10 →
      (updateExpense e pred conf).category = e.category ∧
      (updateExpense e pred conf).confidenceScore = some 0) ∧
    (strTruthy pred = false → MIN_ML_CONFIDENCE ≤ conf →
      (updateExpense e pred conf).category = e.category ∧
      (updateExpense e pred conf).confidenceScore = some 0) ∧
    (∃ q : ℚ, (updateExpense e pred conf).confidenceScore = some q) := by
  refine ⟨?_, ?_, ?_, ?_, ?_⟩
  · intro c hc hcne hconf
    subst hc
    have htruthy : strTruthy (some c) = true := by
      simp [strTruthy, hcne]
    rw [updateExpense, if_pos ⟨htruthy, hconf⟩]
    simp
  · intro h1 h2
    have hnot : ¬(strTruthy pred = true ∧ MIN_ML_CONFIDENCE ≤ conf) := by
      rintro ⟨_, hge⟩
      linarith
    rw [updateExpense, if_neg hnot, if_pos ⟨h1, h2⟩]
    simp
  · intro h1
    have hlt : conf < MIN_ML_CONFIDENCE := by
      rw [MIN_ML_CONFIDENCE]
      linarith
    have hnot : ¬(strTruthy pred = true ∧ MIN_ML_CONFIDENCE ≤ conf) := by
      rintro ⟨_, hge⟩
      linarith
    have hnot2 : ¬(3/10 ≤ conf ∧ conf < MIN_ML_CONFIDENCE) := by
      rintro ⟨hge, _⟩
      linarith
    rw [updateExpense, if_neg hnot, if_neg hnot2]
    simp
  · intro hfalsy hconf
    have hnot : ¬(strTruthy pred = true ∧ MIN_ML_CONFIDENCE ≤ conf) := by
      rintro ⟨htr, _⟩
      rw [hfalsy] at htr
      exact Bool.false_ne_true htr
    have hnot2 : ¬(3/10 ≤ conf ∧ conf < MIN_ML_CONFIDENCE) := by
      rintro ⟨_, hlt⟩
      linarith
    rw [updateExpense, if_neg hnot, if_neg hnot2]
    simp
  · rw [updateExpense]
    split_ifs <;> simp

/-- C1 witness: the amended policy applied at a concrete high-confidence
truthy prediction. -/
theorem C1_decision_policy_witness :
    (updateExpense sampleExpense (some "Fuel") (9/10)).category = "Fuel" ∧
    (updateExpense sampleExpense (some "Fuel") (9/10)).confidenceScore =
      some (9/10) :=
  (C1_decision_policy sampleExpense (some "Fuel") (9/10)).1 "Fuel" rfl
    (by simp) (by norm_num [MIN_ML_CONFIDENCE])

/-- The description-to-Groceries override cannot be shadowed by the later
branches: no food term is also a cleaning or alcohol term. -/
theorem food_terms_disjoint :
    ∀ s ∈ foodItems, s ∉ cleaningItems ∧ s ∉ alcoholItems := by decide

/-- C9: any expense whose lowercased description is in the curated food-item
set ends the rule-based correction with category Groceries, whatever
category the generative suggestion had assigned. -/
theorem C9_food_item_override (e : ExtExpense)
    (h : lowerString e.description ∈ foodItems) :
    (validateExpense e).category = "Groceries" := by
  obtain ⟨hnc, hna⟩ := food_terms_disjoint _ h
  unfold validateExpense
  simp only []
  by_cases hcat : e.category = "Groceries"
  · rw [if_neg (by rintro ⟨_, hne⟩; exact hne hcat),
      if_neg (by rintro ⟨hmem, _⟩; exact hnc hmem),
      if_neg (by rintro ⟨hmem, _⟩; exact hna hmem)]
    rcases hfind : List.find? (fun p => p.1 == lowerString e.vendor)
      vendorCorrections with _ | q
    · rw [hfind]
      exact hcat
    · rw [hfind]
      exact hcat
  · rw [if_pos ⟨h, hcat⟩]
    rcases hfind : List.find?
        (fun p => p.1 == lowerString ({ e with category := "Groceries" } :
          ExtExpense).vendor) vendorCorrections with _ | q
    · rw [hfind]
    · rw [hfind]

/-- C9 witness: the spec scenario — a "cucumber" tagged Household Chemicals
by the generative suggestion is rewritten to Groceries. -/
theorem C9_food_item_override_witness :
    (validateExpense
      ⟨"cucumber", "Asda", "Household Chemicals", 5/2, none, none, none⟩
      ).category = "Groceries" :=
  C9_food_item_override
    ⟨"cucumber", "Asda", "Household Chemicals", 5/2, none, none, none⟩
    (by decide)

theorem processLoop_error
    (search : ExtExpense → Except Unit (List SearchResult))
    (e : ExtExpense) (he : search e = Except.error ()) :
    ∀ pre : List ExtExpense, (∀ x ∈ pre, ∃ v, search x = Except.ok v) →
      ∀ acc rest : List ExtExpense,
        ∃ done : List ExtExpense,
          done.length = acc.length + pre.length ∧
          processLoop search acc (pre ++ e :: rest) =
            (done ++ e :: rest, false) := by
  intro pre
  induction pre with
  | nil =>
    intro _ acc rest
    refine ⟨acc.reverse, by simp, ?_⟩
    simp [processLoop, he]
  | cons x pre ih =>
    intro hpre acc rest
    obtain ⟨v, hv⟩ := hpre x (by simp)
    have hpre2 : ∀ y ∈ pre, ∃ w, search y = Except.ok w :=
      fun y hy => hpre y (by simp [hy])
    obtain ⟨done, hlen, heq⟩ := ih hpre2
      (updateExpense x (predict_category_with_confidence v).1
        (predict_category_with_confidence v).2 :: acc) rest
    refine ⟨done, ?_, ?_⟩
    · rw [hlen]
      simp only [List.length_cons]
      omega
    · rw [List.cons_append]
      simp only [processLoop, hv]
      exact heq

/-- C4: when the similarity infrastructure is unavailable during
classification, the categorization result for the affected expense is its
generative (llm) category with confidence forced to 0, and
`_apply_ml_categorization` still returns a value for every expense (no
error propagates): if the query for expense `e` raises after `pre` succeeded,
`e` comes out with its category untouched and confidence `0.0`; and if the
learner construction itself raises, every expense keeps its category with
confidence `0.0`. -/
theorem C4_degraded_fallback
    (search : ExtExpense → Except Unit (List SearchResult))
    (pre rest : List ExtExpense) (e : ExtExpense)
    (hpre : ∀ x ∈ pre, ∃ v, search x = Except.ok v)
    (he : search e = Except.error ()) :
    (∃ done : List ExtExpense, done.length = pre.length ∧
      applyMlCategorization true true search (pre ++ e :: rest) =
        done ++ ({ e with confidenceScore := some 0 } ::
          rest.map setConfZero)) ∧
    ({ e with confidenceScore := some 0 } : ExtExpense).category =
      e.category ∧
    applyMlCategorization true false search (pre ++ e :: rest) =
      (pre ++ e :: rest).map setConfZero := by
  refine ⟨?_, rfl, by simp [applyMlCategorization]⟩
  obtain ⟨done, hlen, heq⟩ := processLoop_error search e he pre hpre [] rest
  refine ⟨done.map setConfZero, by simpa using hlen, ?_⟩
  show (match processLoop search [] (pre ++ e :: rest) with
    | (res, true) => res
    | (res, false) => res.map setConfZero) =
    done.map setConfZero ++
      ({ e with confidenceScore := some 0 } :: rest.map setConfZero)
  rw [heq]
  simp only [List.map_append, List.map_cons]
  rfl

/-- C4 witness: the theorem applied with an always-failing search oracle and
a single expense. -/
theorem C4_degraded_fallback_witness :
    (∃ done : List ExtExpense, done.length = ([] : List ExtExpense).length ∧
      applyMlCategorization true true (fun _ => Except.error ())
          ([] ++ sampleExpense :: []) =
        done ++ ({ sampleExpense with confidenceScore := some 0 } ::
          ([] : List ExtExpense).map setConfZero)) ∧
    ({ sampleExpense with confidenceScore := some 0 } : ExtExpense).category =
      sampleExpense.category ∧
    applyMlCategorization true false (fun _ => Except.error ())
        ([] ++ sampleExpense :: []) =
      ([] ++ sampleExpense :: []).map setConfZero :=
  C4_degraded_fallback (fun _ => Except.error ()) [] [] sampleExpense
    (by simp) rfl

/-- Shorthand for a historical training row with fixed text fields. -/
def te (i : Nat) (cat : String) : TrainExpense :=
  ⟨i, "paid at the shop", "Tesco", "items", cat, 5⟩

/-- Twelve rows of a single category: only one category can reach any
per-category minimum. -/
def c5data : List TrainExpense :=
  [te 1 "Groceries", te 2 "Groceries", te 3 "Groceries", te 4 "Groceries",
   te 5 "Groceries", te 6 "Groceries", te 7 "Groceries", te 8 "Groceries",
   te 9 "Groceries", te 10 "Groceries", te 11 "Groceries", te 12 "Groceries"]

/-- C5: whenever fewer than two categories reach the per-category minimum,
`train_model` returns `False` with the state untouched — nothing is upserted
into the main collection and no metrics snapshot is appended. -/
theorem C5_insufficient_categories (minSamples : Nat)
    (expenses : List TrainExpense)
    (folds : List (List TrainExpense × List TrainExpense))
    (search : Nat → TrainExpense → Except Unit (List SearchResult))
    (st : TrainState)
    (h : (validCategories minSamples expenses).length < 2) :
    train_model minSamples expenses folds search st = (false, st) ∧
    (train_model minSamples expenses folds search st).2.mainPoints =
      st.mainPoints ∧
    (train_model minSamples expenses folds search st).2.savedMetrics =
      st.savedMetrics := by
  have hmain : train_model minSamples expenses folds search st =
      (false, st) := by
    unfold train_model
    by_cases hlen : expenses.length < 10
    · rw [if_pos hlen]
    · rw [if_neg hlen]
      simp only []
      rw [if_pos h]
  exact ⟨hmain, by rw [hmain], by rw [hmain]⟩

/-- C5 witness: the theorem applied to a twelve-row single-category
dataset. -/
theorem C5_insufficient_categories_witness :
    train_model 5 c5data [] (fun _ _ => Except.error ()) ⟨[], []⟩ =
      (false, ⟨[], []⟩) ∧
    (train_model 5 c5data [] (fun _ _ => Except.error ()) ⟨[], []⟩
      ).2.mainPoints = (⟨[], []⟩ : TrainState).mainPoints ∧
    (train_model 5 c5data [] (fun _ _ => Except.error ()) ⟨[], []⟩
      ).2.savedMetrics = (⟨[], []⟩ : TrainState).savedMetrics :=
  C5_insufficient_categories 5 c5data [] (fun _ _ => Except.error ())
    ⟨[], []⟩ (by decide)

/-- Six rows, two categories of three samples each: both categories reach
the traditional learner's per-category minimum of 3. -/
def c10data : List TrainExpense :=
  [te 1 "Groceries", te 2 "Groceries", te 3 "Groceries",
   te 4 "Fuel", te 5 "Fuel", te 6 "Fuel"]

/-- C10: both learners silently enforce a global minimum of 10 records
before any per-category check; with fewer than 10 records training fails
even when two categories each reach the per-category minimum, as the
six-row, two-category dataset under the traditional threshold 3 shows. -/
theorem C10_global_minimum_ten :
    (∀ (minSamples : Nat) (expenses : List TrainExpense)
        (folds : List (List TrainExpense × List TrainExpense))
        (search : Nat → TrainExpense → Except Unit (List SearchResult))
        (st : TrainState), expenses.length < 10 →
      train_model minSamples expenses folds search st = (false, st)) ∧
    (∀ (expenses : List TrainExpense) (evalAfter : Option ℚ) (st : NBState),
      expenses.length < 10 →
      nb_train_model expenses evalAfter st = (false, st)) ∧
    (validCategories 3 c10data).length = 2 ∧
    c10data.length = 6 ∧
    nb_train_model c10data (some (9/10)) ⟨none, [], 0⟩ =
      (false, ⟨none, [], 0⟩) := by
  have h1 : ∀ (minSamples : Nat) (expenses : List TrainExpense)
      (folds : List (List TrainExpense × List TrainExpense))
      (search : Nat → TrainExpense → Except Unit (List SearchResult))
      (st : TrainState), expenses.length < 10 →
      train_model minSamples expenses folds search st = (false, st) := by
    intro minSamples expenses folds search st h
    unfold train_model
    rw [if_pos h]
  have h2 : ∀ (expenses : List TrainExpense) (evalAfter : Option ℚ)
      (st : NBState), expenses.length < 10 →
      nb_train_model expenses evalAfter st = (false, st) := by
    intro expenses evalAfter st h
    unfold nb_train_model
    rw [if_pos h]
  exact ⟨h1, h2, by decide, by decide,
    h2 c10data (some (9/10)) ⟨none, [], 0⟩ (by decide)⟩

/-- C10 witness: the vector learner's guard applied at the six-row
dataset. -/
theorem C10_global_minimum_ten_witness :
    train_model 3 c10data [] (fun _ _ => Except.error ()) ⟨[], []⟩ =
      (false, ⟨[], []⟩) :=
  C10_global_minimum_ten.1 3 c10data [] (fun _ _ => Except.error ())
    ⟨[], []⟩ (by decide)

/-- Ten rows, five per category: both categories reach the vector learner's
per-category minimum of 5. -/
def c6data : List TrainExpense :=
  [te 1 "Groceries", te 2 "Groceries", te 3 "Groceries", te 4 "Groceries",
   te 5 "Groceries", te 6 "Fuel", te 7 "Fuel", te 8 "Fuel", te 9 "Fuel",
   te 10 "Fuel"]

/-- A 5-fold partition of `c6data`: fold `k+1` holds out one Groceries and
one Fuel row. -/
def c6folds : List (List TrainExpense × List TrainExpense) :=
  (List.range 5).map (fun k =>
    (c6data.filter (fun e => e.id ≠ k + 1 ∧ e.id ≠ k + 6),
     [te (k + 1) "Groceries", te (k + 6) "Fuel"]))

/-- A search oracle that is healthy except during fold 2, where the index
raises. -/
def c6search (foldNum : Nat) (e : TrainExpense) :
    Except Unit (List SearchResult) :=
  if foldNum = 2 then Except.error ()
  else Except.ok [⟨e.category, 9/10⟩]

/-- C6 (amended): an infrastructure failure inside any single fold aborts
the entire training run — the fold loop has no per-fold handler, so the
error reaches the outer handler, `train_model` returns failure, and no
points or metrics are persisted (state unchanged); no partial metrics are
produced. -/
theorem C6_fold_failure_aborts (minSamples : Nat)
    (expenses : List TrainExpense)
    (folds : List (List TrainExpense × List TrainExpense))
    (search : Nat → TrainExpense → Except Unit (List SearchResult))
    (st : TrainState)
    (h : runFolds search 1 folds = Except.error ()) :
    train_model minSamples expenses folds search st = (false, st) := by
  unfold train_model
  by_cases h1 : expenses.length < 10
  · rw [if_pos h1]
  · rw [if_neg h1]
    simp only []
    by_cases h2 : (validCategories minSamples expenses).length < 2
    · rw [if_pos h2]
    · rw [if_neg h2, h]

/-- C6 counterexample: with the oracle failing only in fold 2, the whole run
returns failure and records nothing — the remaining folds are not used to
produce partial metrics, contradicting the claim that only the failing fold
is excluded. -/
theorem C6_counterexample :
    c6search 2 (te 2 "Groceries") = Except.error () ∧
    c6search 1 (te 1 "Groceries") = Except.ok [⟨"Groceries", 9/10⟩] ∧
    c6search 3 (te 3 "Groceries") = Except.ok [⟨"Groceries", 9/10⟩] ∧
    train_model 5 c6data c6folds c6search ⟨[], []⟩ = (false, ⟨[], []⟩) ∧
    (train_model 5 c6data c6folds c6search ⟨[], []⟩).2.savedMetrics = [] := by
  refine ⟨rfl, rfl, rfl, ?_, ?_⟩ <;>
    norm_num +decide [train_model, validCategories, categoryCounts,
      bumpCount, sortByCountDesc, insertDesc, runFolds, runFoldTests,
      foldPredict, categoryScores, addScore, scoresTotal, maxByScore,
      displayLabel, c6data, c6folds, c6search, te,
      show List.range 5 = [0, 1, 2, 3, 4] from by decide]

/-- C6 witness: the amended theorem applied at the concrete failing
scenario. -/
theorem C6_fold_failure_aborts_witness :
    train_model 5 c6data c6folds c6search ⟨[], []⟩ = (false, ⟨[], []⟩) :=
  C6_fold_failure_aborts 5 c6data c6folds c6search ⟨[], []⟩ (by
    norm_num +decide [runFolds, runFoldTests, foldPredict, categoryScores,
      addScore, scoresTotal, maxByScore, displayLabel, c6folds, c6search, te,
      show List.range 5 = [0, 1, 2, 3, 4] from by decide])

theorem sum_map_add_split {α : Type} (l : List α) (f g : α → Nat) :
    (l.map (fun x => f x + g x)).sum = (l.map f).sum + (l.map g).sum := by
  induction l with
  | nil => simp
  | cons x xs ih =>
    simp only [List.map_cons, List.sum_cons, ih]
    omega

theorem indicator_sum_nodup (labels : List String) (hnd : labels.Nodup)
    (s : String) :
    (labels.map (fun p => if s = p then 1 else 0)).sum =
      (if s ∈ labels then 1 else 0 : Nat) := by
  induction labels with
  | nil => simp
  | cons p ls ih =>
    obtain ⟨hp, hnd2⟩ := List.nodup_cons.mp hnd
    simp only [List.map_cons, List.sum_cons, List.mem_cons]
    by_cases hs : s = p
    · subst hs
      rw [if_pos rfl, if_pos (Or.inl rfl), ih hnd2, if_neg hp]
    · rw [if_neg hs, ih hnd2]
      by_cases hm : s ∈ ls
      · rw [if_pos hm, if_pos (Or.inr hm)]
      · rw [if_neg hm, if_neg (by
          rintro (h | h)
          · exact hs h
          · exact hm h)]

theorem confusionRow_sum (labels : List String) (hnd : labels.Nodup)
    (t : String) :
    ∀ pairs : List (String × String),
      (confusionRow labels pairs t).sum =
        (pairs.filter
          (fun q => q.1 == t && decide (q.2 ∈ labels))).length := by
  intro pairs
  induction pairs with
  | nil => simp [confusionRow]
  | cons q qs ih =>
    have hpoint : ∀ p : String,
        (List.filter (fun r => r.1 == t && r.2 == p) (q :: qs)).length =
          (if q.1 = t ∧ q.2 = p then 1 else 0) +
            (List.filter (fun r => r.1 == t && r.2 == p) qs).length := by
      intro p
      rw [List.filter_cons]
      by_cases h : (q.1 == t && q.2 == p) = true
      · rw [if_pos h, if_pos (by simpa [Bool.and_eq_true, beq_iff_eq]
          using h), List.length_cons]
        omega
      · rw [if_neg h, if_neg (by simpa [Bool.and_eq_true, beq_iff_eq]
          using h)]
        omega
    have hrhs :
        (List.filter (fun r => r.1 == t && decide (r.2 ∈ labels))
            (q :: qs)).length =
          (if q.1 = t ∧ q.2 ∈ labels then 1 else 0) +
            (List.filter
              (fun r => r.1 == t && decide (r.2 ∈ labels)) qs).length := by
      rw [List.filter_cons]
      by_cases h : (q.1 == t && decide (q.2 ∈ labels)) = true
      · rw [if_pos h, if_pos (by simpa [Bool.and_eq_true, beq_iff_eq]
          using h), List.length_cons]
        omega
      · rw [if_neg h, if_neg (by simpa [Bool.and_eq_true, beq_iff_eq]
          using h)]
        omega
    simp only [confusionRow] at ih ⊢
    simp only [hpoint, hrhs, sum_map_add_split, ih]
    by_cases hq1 : q.1 = t
    · simp only [hq1, true_and]
      rw [indicator_sum_nodup labels hnd q.2]
    · simp [hq1]

/-- C7 (amended): the out-of-fold prediction list substitutes the explicit
label "Unknown" for empty predictions, but the confusion matrix is built
only over the eligible category labels (the "Unknown" column is dropped by
`labels=valid_categories`); consequently each row sum equals the number of
test samples of that true category whose prediction is among the eligible
labels — not the full test count — and every entry is a non-negative
integer. -/
theorem C7_confusion_matrix_rows (labels : List String)
    (pairs : List (String × String)) (hnd : labels.Nodup) (t : String)
    (ht : t ∈ labels) :
    confusionRow labels pairs t ∈ confusionMatrix labels pairs ∧
    (confusionRow labels pairs t).sum =
      (pairs.filter (fun q => q.1 == t && decide (q.2 ∈ labels))).length ∧
    (∀ row ∈ confusionMatrix labels pairs, ∀ n ∈ row, 0 ≤ n) ∧
    displayLabel none = "Unknown" ∧
    displayLabel (some "") = "Unknown" := by
  refine ⟨List.mem_map_of_mem (confusionRow labels pairs) ht,
    confusionRow_sum labels hnd t pairs,
    fun row _ n _ => Nat.zero_le n, rfl, rfl⟩

/-- Eleven rows: six Groceries, five Fuel — both reach the vector minimum
of 5. -/
def c7data : List TrainExpense :=
  [te 1 "Groceries", te 2 "Groceries", te 3 "Groceries", te 4 "Groceries",
   te 5 "Groceries", te 6 "Groceries", te 7 "Fuel", te 8 "Fuel",
   te 9 "Fuel", te 10 "Fuel", te 11 "Fuel"]

/-- A 5-fold partition of `c7data` with test sizes 2,2,2,2,3. -/
def c7folds : List (List TrainExpense × List TrainExpense) :=
  (List.range 4).map (fun k =>
    (c7data.filter (fun e => e.id ≠ k + 1 ∧ e.id ≠ k + 7),
     [te (k + 1) "Groceries", te (k + 7) "Fuel"])) ++
  [(c7data.filter (fun e => e.id ≠ 5 ∧ e.id ≠ 6 ∧ e.id ≠ 11),
    [te 5 "Groceries", te 6 "Groceries", te 11 "Fuel"])]

/-- A search oracle that finds no neighbors for expense 1 (producing an
empty prediction) and one correct neighbor for every other expense. -/
def c7search (_ : Nat) (e : TrainExpense) :
    Except Unit (List SearchResult) :=
  if e.id = 1 then Except.ok [] else Except.ok [⟨e.category, 9/10⟩]

/-- The out-of-fold records produced by the C7 scenario run. -/
def c7records : List FoldRecord :=
  match runFolds c7search 1 c7folds with
  | .ok r => r.2
  | .error _ => []

/-- C7 counterexample: in the scenario run one held-out Groceries sample
gets the empty prediction (recorded as "Unknown"), yet the persisted matrix
is labeled only by the two eligible categories; its Groceries row sums to 5
while the run contains 6 test samples whose true label is Groceries — the
row sum does not equal the per-category test count claimed. -/
theorem C7_counterexample :
    (train_model 5 c7data c7folds c7search ⟨[], []⟩).2.savedMetrics =
      [⟨9/10, 11, 2, [[5, 0], [0, 5]], ["Groceries", "Fuel"],
        [1/2, 1, 1, 1, 1]⟩] ∧
    (⟨"Groceries", "Unknown", 0⟩ : FoldRecord) ∈ c7records ∧
    "Unknown" ∉ (["Groceries", "Fuel"] : List String) ∧
    (c7records.filter (fun r => r.trueLabel == "Groceries")).length = 6 ∧
    ([5, 0] : List Nat).sum = 5 ∧
    (5 : Nat) ≠ 6 := by
  refine ⟨?_, ?_, by decide, ?_, by decide, by decide⟩ <;>
    norm_num +decide [train_model, validCategories, categoryCounts,
      bumpCount, sortByCountDesc, insertDesc, runFolds, runFoldTests,
      foldPredict, categoryScores, addScore, scoresTotal, maxByScore,
      displayLabel, confusionMatrix, confusionRow, upsertPoints, upsertPoint,
      c7data, c7folds, c7search, c7records, te,
      show List.range 4 = [0, 1, 2, 3] from by decide]

/-- C7 witness: the amended row-sum law applied to a concrete label set and
prediction list containing an "Unknown" prediction. -/
theorem C7_confusion_matrix_rows_witness :
    confusionRow ["Groceries", "Fuel"]
        [("Groceries", "Unknown"), ("Groceries", "Groceries")] "Groceries" ∈
      confusionMatrix ["Groceries", "Fuel"]
        [("Groceries", "Unknown"), ("Groceries", "Groceries")] ∧
    (confusionRow ["Groceries", "Fuel"]
        [("Groceries", "Unknown"), ("Groceries", "Groceries")]
        "Groceries").sum =
      (([("Groceries", "Unknown"), ("Groceries", "Groceries")] :
          List (String × String)).filter
        (fun q => q.1 == "Groceries" &&
          decide (q.2 ∈ ["Groceries", "Fuel"]))).length ∧
    (∀ row ∈ confusionMatrix ["Groceries", "Fuel"]
        [("Groceries", "Unknown"), ("Groceries", "Groceries")],
      ∀ n ∈ row, 0 ≤ n) ∧
    displayLabel none = "Unknown" ∧
    displayLabel (some "") = "Unknown" :=
  C7_confusion_matrix_rows ["Groceries", "Fuel"]
    [("Groceries", "Unknown"), ("Groceries", "Groceries")] (by decide)
    "Groceries" (by decide)

/-- Twelve rows: six Groceries, six Fuel — a dataset on which a full vector
training run succeeds. -/
def c8data : List TrainExpense :=
  [te 1 "Groceries", te 2 "Groceries", te 3 "Groceries", te 4 "Groceries",
   te 5 "Groceries", te 6 "Groceries", te 7 "Fuel", te 8 "Fuel",
   te 9 "Fuel", te 10 "Fuel", te 11 "Fuel", te 12 "Fuel"]

/-- `db_manager.get_expense` over `c8data`. -/
def c8get (i : Nat) : Option TrainExpense :=
  c8data.find? (fun e => e.id == i)

/-- A 5-fold partition of `c8data` with test sizes 3,3,2,2,2. -/
def c8folds : List (List TrainExpense × List TrainExpense) :=
  [(c8data.filter (fun e => e.id ≠ 1 ∧ e.id ≠ 7 ∧ e.id ≠ 12),
    [te 1 "Groceries", te 7 "Fuel", te 12 "Fuel"]),
   (c8data.filter (fun e => e.id ≠ 2 ∧ e.id ≠ 8 ∧ e.id ≠ 6),
    [te 2 "Groceries", te 8 "Fuel", te 6 "Groceries"]),
   (c8data.filter (fun e => e.id ≠ 3 ∧ e.id ≠ 9),
    [te 3 "Groceries", te 9 "Fuel"]),
   (c8data.filter (fun e => e.id ≠ 4 ∧ e.id ≠ 10),
    [te 4 "Groceries", te 10 "Fuel"]),
   (c8data.filter (fun e => e.id ≠ 5 ∧ e.id ≠ 11),
    [te 5 "Groceries", te 11 "Fuel"])]

/-- A healthy search oracle: each query returns one correct neighbor. -/
def c8search (_ : Nat) (e : TrainExpense) :
    Except Unit (List SearchResult) :=
  Except.ok [⟨e.category, 9/10⟩]

/-- The point the incremental updater writes: the expense's recomputed
canonical text (its embedding) with the confirmed category. -/
def incPoint (expenseId : Nat) (e : TrainExpense) (cat : String) : VPoint :=
  ⟨expenseId, prepareExpenseText e, cat, e.amount⟩

/-- C8 (amended): the vector incremental path recomputes the canonical text
and embedding of the single expense and upserts exactly that one point into
the main collection with the confirmed category, leaving the metrics log
untouched — it does NOT trigger a full training run when no model/index
exists; the transparent full-training fallback exists only in the
traditional learner's incremental path, where a missing model makes
`incremental_train` run (and propagate the outcome of) `train_model`
first. -/
theorem C8_incremental_single_upsert
    (getExpense : Nat → Option TrainExpense) (expenseId : Nat)
    (confirmedCategory : String) (st : TrainState) (e : TrainExpense)
    (hg : getExpense expenseId = some e) :
    incremental_train getExpense expenseId confirmedCategory st =
      (true, { st with mainPoints := upsertPoint st.mainPoints (incPoint expenseId e confirmedCategory) }) ∧
    (incremental_train getExpense expenseId confirmedCategory st
      ).2.savedMetrics = st.savedMetrics ∧
    (∀ (expenses : List TrainExpense) (evalAfter : Option ℚ)
        (nbst stf : NBState), nbst.model = none →
      nb_train_model expenses evalAfter nbst = (false, stf) →
      nb_incremental_train getExpense expenses evalAfter expenseId
        confirmedCategory nbst = (false, stf)) := by
  have h1 : incremental_train getExpense expenseId confirmedCategory st =
      (true, { st with mainPoints := upsertPoint st.mainPoints (incPoint expenseId e confirmedCategory) }) := by
    unfold incremental_train incPoint
    rw [hg]
  refine ⟨h1, by rw [h1], ?_⟩
  intro expenses evalAfter nbst stf hm htrain
  unfold nb_incremental_train
  rw [hg]
  simp only [hm, htrain]

/-- C8 witness: the single-point upsert applied at a concrete expense and
empty index. -/
theorem C8_incremental_single_upsert_witness :
    incremental_train c8get 2 "Fuel" ⟨[], []⟩ =
      (true, { (⟨[], []⟩ : TrainState) with mainPoints := upsertPoint ([] : List VPoint) (incPoint 2 (te 2 "Groceries") "Fuel") }) :=
  (C8_incremental_single_upsert c8get 2 "Fuel" ⟨[], []⟩
    (te 2 "Groceries") rfl).1

/-- C8 counterexample: starting from an empty index (no model exists), the
vector incremental path succeeds with exactly one point and an empty metrics
log — no full training run is triggered — although a full `train_model` run
on the same twelve-row database succeeds and appends a metrics snapshot, so
a triggered run would have been observable. -/
theorem C8_counterexample :
    incremental_train c8get 1 "Groceries" ⟨[], []⟩ =
      (true, ⟨[⟨1, prepareExpenseText (te 1 "Groceries"), "Groceries", 5⟩],
        []⟩) ∧
    (incremental_train c8get 1 "Groceries" ⟨[], []⟩).2.savedMetrics = [] ∧
    (incremental_train c8get 1 "Groceries" ⟨[], []⟩
      ).2.mainPoints.length = 1 ∧
    (train_model 5 c8data c8folds c8search ⟨[], []⟩).1 = true ∧
    (train_model 5 c8data c8folds c8search ⟨[], []⟩
      ).2.savedMetrics.length = 1 := by
  have hinc : incremental_train c8get 1 "Groceries" ⟨[], []⟩ =
      (true, ⟨[⟨1, prepareExpenseText (te 1 "Groceries"), "Groceries", 5⟩],
        []⟩) := by
    have hg : c8get 1 = some (te 1 "Groceries") := rfl
    have h := (C8_incremental_single_upsert c8get 1 "Groceries" ⟨[], []⟩
      (te 1 "Groceries") hg).1
    rw [h]
    rfl
  refine ⟨hinc, by rw [hinc], by rw [hinc]; rfl, ?_, ?_⟩ <;>
    norm_num +decide [train_model, validCategories, categoryCounts,
      bumpCount, sortByCountDesc, insertDesc, runFolds, runFoldTests,
      foldPredict, categoryScores, addScore, scoresTotal, maxByScore,
      displayLabel, confusionMatrix, confusionRow, upsertPoints, upsertPoint,
      c8data, c8folds, c8search, te]

end Expenses
